import Mathlib

/-!
Verification development for the `aether_spyglass` entity-inspector crate.

The Rust sources embedded here are `src/tabs/entities.rs` and
`src/tabs/entities/editors.rs`. Values flowing through the inspector are
`Box<dyn Reflect>` handles obtained via `clone_value()`, so composite values
are always the `Dynamic*` variants of `bevy_reflect`; primitives are concrete
boxed values. We model that universe with the inductive `DynVal` below.

Rust functions that can panic (an `unwrap` on a failed downcast or a dead
entity) or diverge (unbounded recursion through the type registry) are
modelled in the result type `RRes`: `panic` models a Rust panic, `outOfFuel`
is the fuel-exhaustion marker of the explicit-fuel translation of the
(otherwise possibly non-terminating) recursion; divergence of the source is
expressed as `∀ fuel, ... = .outOfFuel`.
-/

namespace Spyglass

/-- Result of running a piece of translated Rust code: a returned value, a
panic, or fuel exhaustion (the code would still be running). -/
inductive RRes (α : Type) where
  | ret (a : α)
  | panic
  | outOfFuel
deriving Repr

/-- Sequencing that propagates panics and fuel exhaustion. -/
def RRes.bind {α β : Type} : RRes α → (α → RRes β) → RRes β
  | .ret a, f => f a
  | .panic, _ => .panic
  | .outOfFuel, _ => .outOfFuel

/-- The `Option`-inside-`RRes` layering used by the synthesis code, whose Rust
functions return `Option<Box<dyn Reflect>>` and use the `?` operator: `ret
none` models an early `None` return. -/
def synBind {α β : Type} : RRes (Option α) → (α → RRes (Option β)) → RRes (Option β)
  | .ret (some a), f => f a
  | .ret none, _ => .ret none
  | .panic, _ => .panic
  | .outOfFuel, _ => .outOfFuel

mutual
/-- Model of a `Box<dyn Reflect>` value as it occurs in this program: the
`bevy_reflect` dynamic containers (these are what `clone_value()` and the
synthesis code produce), concrete boxed primitives, and the crate's own
concrete `VariantProxy` struct. Each constructor that models a dynamic
container carries the type path reported by `type_name()` (the represented
type's path, when one was set). -/
inductive DynVal : Type where
  | dynStruct (name : String) (fields : List (String × DynVal))
  | dynTupleStruct (name : String) (fields : List DynVal)
  | dynTuple (name : String) (fields : List DynVal)
  | dynList (name : String) (items : List DynVal)
  | dynArray (name : String) (items : List DynVal)
  | dynMap (name : String) (entries : List (DynVal × DynVal))
  | dynEnum (name : String) (variant_name : String) (payload : DynVariantV)
  | pbool (b : Bool)
  | pnum (ty : String) (v : Int)
  | pstr (s : String)
  | proxy (variant : String) (kind : VariantKindV)

/-- Model of `bevy_reflect::DynamicVariant`. -/
inductive DynVariantV : Type where
  | unitV
  | structV (fields : List (String × DynVal))
  | tupleV (fields : List DynVal)

/-- Model of the crate's `VariantKind` enum (payload of `VariantProxy`). -/
inductive VariantKindV : Type where
  | kstruct (fields : List (String × DynVal))
  | ktuple (fields : List DynVal)
  | kunit
end

/-- `std::any::type_name::<VariantProxy>()`. -/
def variantProxyTypeName : String :=
  "aether_spyglass::tabs::entities::editors::VariantProxy"

/-- `type_name()` of a modelled `dyn Reflect` value. Dynamic containers
report their represented type path; primitives report their primitive path;
floating-point payloads are carried as integer tokens (only the literal `0.0`
is ever synthesized by this program). -/
def DynVal.type_name : DynVal → String
  | .dynStruct n _ => n
  | .dynTupleStruct n _ => n
  | .dynTuple n _ => n
  | .dynList n _ => n
  | .dynArray n _ => n
  | .dynMap n _ => n
  | .dynEnum n _ _ => n
  | .pbool _ => "bool"
  | .pnum ty _ => ty
  | .pstr _ => "alloc::string::String"
  | .proxy _ _ => variantProxyTypeName

/-- A named field of a struct shape or struct variant: `(name, type_path)`. -/
structure NamedFieldI where
  fname : String
  ftype : String
deriving Repr

/-- Model of `bevy_reflect::VariantInfo`: unnamed fields carry the field's
type path. -/
inductive VariantInfoI : Type where
  | vstruct (name : String) (fields : List NamedFieldI)
  | vtuple (name : String) (fields : List String)
  | vunit (name : String)
deriving Repr

/-- Model of `bevy_reflect::TypeInfo` for the shapes the synthesis code
matches on. `tarray` carries the array's own `type_path()` (which is what the
source passes to `get_type_info`) plus its `capacity()`; `tenum` carries the
enum's `type_path()` and variant list; `tvalue` carries the value type's
path.  Fields refer to sub-types by type path, resolved through the
registry. -/
inductive TypeInfoI : Type where
  | tstruct (fields : List NamedFieldI)
  | ttupleStruct (fields : List String)
  | ttuple (fields : List String)
  | tlist
  | tarray (type_path : String) (capacity : Nat)
  | tmap
  | tenum (type_path : String) (variants : List VariantInfoI)
  | tvalue (type_path : String)
deriving Repr

/-- The app type registry as consulted by `get_type_info`: type path to
`TypeInfo`. -/
abbrev RegistryI := List (String × TypeInfoI)

/-- `get_type_info(world, name)`: look the name up in the registry. -/
def get_type_info (reg : RegistryI) (name : String) : Option TypeInfoI :=
  (reg.find? (fun p => p.1 == name)).map (·.2)

/-- `DynamicStruct::insert_boxed`: replace the field if the name is already
present, otherwise append. -/
def dynStructInsert (fields : List (String × DynVal)) (name : String) (v : DynVal) :
    List (String × DynVal) :=
  if fields.any (fun p => p.1 == name) then
    fields.map (fun p => if p.1 == name then (name, v) else p)
  else
    fields ++ [(name, v)]

/-- `reflect_ref` discriminator, as far as the synthesis code inspects it.
`VariantProxy` is a `#[derive(Reflect)]` struct, so its `reflect_ref` is the
`Struct` variant. -/
inductive RefKind : Type where
  | rstruct | rtupleStruct | rtuple | rlist | rarray | rmap | renum | rvalue
deriving Repr, DecidableEq

/-- The `reflect_ref` classification of a modelled value. -/
def reflectRefKind : DynVal → RefKind
  | .dynStruct _ _ => .rstruct
  | .dynTupleStruct _ _ => .rtupleStruct
  | .dynTuple _ _ => .rtuple
  | .dynList _ _ => .rlist
  | .dynArray _ _ => .rarray
  | .dynMap _ _ => .rmap
  | .dynEnum _ _ _ => .renum
  | .pbool _ => .rvalue
  | .pnum _ _ => .rvalue
  | .pstr _ => .rvalue
  | .proxy _ _ => .rstruct

/-- `Box<dyn Reflect>::downcast::<DynamicStruct>()`: succeeds only when the
concrete type is `DynamicStruct` (in the model, the `dynStruct`
constructor). A `VariantProxy` is a different concrete type, so it fails. -/
def downcastDynamicStruct : DynVal → Option (List (String × DynVal))
  | .dynStruct _ fs => some fs
  | _ => none

/-- `Box<dyn Reflect>::downcast::<DynamicTuple>()`. -/
def downcastDynamicTuple : DynVal → Option (List DynVal)
  | .dynTuple _ fs => some fs
  | _ => none

mutual
/-- `default_value(info, world)` from `editors.rs`, with explicit fuel.
Every recursive call runs at decremented fuel; `outOfFuel` at zero. The
array arm reproduces the source faithfully: it looks up `info.type_path()`
(the array's own path, not the item's) and, since `repeat_with` re-runs the
same pure computation, collapses the `capacity()`-fold repetition to a single
recursive call replicated (except that a zero capacity never runs the
closure at all). The enum arm reproduces the `reflect_ref`/`downcast` match
on the `VariantProxy` returned by `default_variant_value`. -/
def default_value (fuel : Nat) (reg : RegistryI) (info : TypeInfoI) :
    RRes (Option DynVal) :=
  match fuel with
  | 0 => .outOfFuel
  | f + 1 =>
    match info with
    | .tstruct fields =>
      synBind (default_named_fields f reg fields []) (fun fs =>
        .ret (some (.dynStruct "bevy_reflect::DynamicStruct" fs)))
    | .ttupleStruct fields =>
      synBind (default_unnamed_fields f reg fields) (fun fs =>
        .ret (some (.dynTupleStruct "bevy_reflect::DynamicTupleStruct" fs)))
    | .ttuple fields =>
      synBind (default_unnamed_fields f reg fields) (fun fs =>
        .ret (some (.dynTuple "bevy_reflect::DynamicTuple" fs)))
    | .tlist => .ret (some (.dynList "bevy_reflect::DynamicList" []))
    | .tarray type_path capacity =>
      match get_type_info reg type_path with
      | none => .ret none
      | some item_info =>
        if capacity = 0 then
          .ret (some (.dynArray "bevy_reflect::DynamicArray" []))
        else
          synBind (default_value f reg item_info) (fun v =>
            .ret (some (.dynArray "bevy_reflect::DynamicArray"
              (List.replicate capacity v))))
    | .tmap => .ret (some (.dynMap "bevy_reflect::DynamicMap" []))
    | .tenum type_path variants =>
      match variants[0]? with
      | none => .ret none
      | some default_variant =>
        synBind (default_variant_value f reg default_variant) (fun dv =>
          match reflectRefKind dv with
          | .rstruct =>
            match downcastDynamicStruct dv with
            | some fs => .ret (some (.dynEnum type_path type_path (.structV fs)))
            | none => .panic
          | .rtuple =>
            match downcastDynamicTuple dv with
            | some fs => .ret (some (.dynEnum type_path type_path (.tupleV fs)))
            | none => .panic
          | .rvalue => .ret (some (.dynEnum type_path type_path .unitV))
          | _ => .panic)
    | .tvalue type_path =>
      match type_path with
      | "bool" => .ret (some (.pbool false))
      | "i8" => .ret (some (.pnum "i8" 0))
      | "i16" => .ret (some (.pnum "i16" 0))
      | "i32" => .ret (some (.pnum "i32" 0))
      | "i64" => .ret (some (.pnum "i64" 0))
      | "isize" => .ret (some (.pnum "isize" 0))
      | "u8" => .ret (some (.pnum "u8" 0))
      | "u16" => .ret (some (.pnum "u16" 0))
      | "u32" => .ret (some (.pnum "u32" 0))
      | "u64" => .ret (some (.pnum "u64" 0))
      | "usize" => .ret (some (.pnum "usize" 0))
      | "f32" => .ret (some (.pnum "f32" 0))
      | "f64" => .ret (some (.pnum "f64" 0))
      | "alloc::string::String" => .ret (some (.pstr ""))
      | _ => .ret none

/-- `default_variant_value(variant, world)` from `editors.rs`: builds a
`VariantProxy` for the given variant, defaulting each field. -/
def default_variant_value (fuel : Nat) (reg : RegistryI) (variant : VariantInfoI) :
    RRes (Option DynVal) :=
  match fuel with
  | 0 => .outOfFuel
  | f + 1 =>
    match variant with
    | .vstruct name fields =>
      synBind (default_named_fields f reg fields []) (fun fs =>
        .ret (some (.proxy name (.kstruct fs))))
    | .vtuple name fields =>
      synBind (default_unnamed_fields f reg fields) (fun fs =>
        .ret (some (.proxy name (.ktuple fs))))
    | .vunit name => .ret (some (.proxy name .kunit))

/-- The field loop shared by the struct-shaped arms: look up each field's
type path and default it, short-circuiting on a missing registration
(`?`). Fields are accumulated left to right with
`DynamicStruct::insert_boxed` (`acc` is the struct built so far). -/
def default_named_fields (fuel : Nat) (reg : RegistryI) (fields : List NamedFieldI)
    (acc : List (String × DynVal)) : RRes (Option (List (String × DynVal))) :=
  match fuel with
  | 0 => .outOfFuel
  | f + 1 =>
    match fields with
    | [] => .ret (some acc)
    | field :: rest =>
      match get_type_info reg field.ftype with
      | none => .ret none
      | some info =>
        synBind (default_value f reg info) (fun v =>
          default_named_fields f reg rest (dynStructInsert acc field.fname v))

/-- The field loop shared by the tuple-shaped arms: declaration order is
preserved (`DynamicTuple::insert_boxed` appends). -/
def default_unnamed_fields (fuel : Nat) (reg : RegistryI) (fields : List String) :
    RRes (Option (List DynVal)) :=
  match fuel with
  | 0 => .outOfFuel
  | f + 1 =>
    match fields with
    | [] => .ret (some [])
    | ftype :: rest =>
      match get_type_info reg ftype with
      | none => .ret none
      | some info =>
        synBind (default_value f reg info) (fun v =>
          synBind (default_unnamed_fields f reg rest) (fun vs =>
            .ret (some (v :: vs))))
end

/-! ## Editor table (`ReprEditors`) -/

/-- Which editor function a table entry denotes. The default table only ever
holds the seeded editors; `reflectE` is the fallback `REFLECT_EDITOR` (the
generic shape dispatcher). -/
inductive EditorKind : Type where
  | boolE
  | numE (ty : String)
  | stringE
  | proxyE
  | reflectE
deriving Repr, DecidableEq

/-- The `ReprEditors` resource: a map from `type_name` strings to editors. -/
structure ReprEditors where
  editors : List (String × EditorKind)
deriving Repr

/-- Association-list lookup standing in for the `HashMap` lookup. -/
def lookupEditor (t : ReprEditors) (name : String) : Option EditorKind :=
  (t.editors.find? (fun p => p.1 == name)).map (·.2)

/-- `ReprEditors::get`: the registered editor, or the reflect-powered
fallback if none exists. A read-only operation on the table. -/
def ReprEditors.get (t : ReprEditors) (name : String) : EditorKind :=
  (lookupEditor t name).getD .reflectE

/-- `impl Default for ReprEditors` from `entities.rs`: the seeded table. -/
def reprEditorsDefault : ReprEditors :=
  ⟨[("bool", .boolE),
    ("i8", .numE "i8"),
    ("i16", .numE "i16"),
    ("i32", .numE "i32"),
    ("i64", .numE "i64"),
    ("isize", .numE "isize"),
    ("u8", .numE "u8"),
    ("u16", .numE "u16"),
    ("u32", .numE "u32"),
    ("u64", .numE "u64"),
    ("usize", .numE "usize"),
    ("f32", .numE "f32"),
    ("f64", .numE "f64"),
    ("alloc::string::String", .stringE),
    (variantProxyTypeName, .proxyE)]⟩

/-! ## Enum variant selection (`variant_menu_button` click handler) -/

/-- The `DynamicEnum` under edit (component reprs come from `clone_value`,
so the edited enum is always a `DynamicEnum`): represented type path, active
variant name, active variant payload. -/
structure DynEnumV where
  type_name : String
  variant_name : String
  payload : DynVariantV

/-- A `Ctor` (constructor session): in-progress value plus freshness flag. -/
structure CtorM where
  value : Option DynVal
  fresh : Bool

/-- `DynamicVariant::from` on the payload of a `VariantKind`. -/
def kindToVariant : VariantKindV → DynVariantV
  | .kstruct fs => .structV fs
  | .ktuple fs => .tupleV fs
  | .kunit => .unitV

/-- `VariantProxy::into_enum(self, name)`: builds
`DynamicEnum::new(name, variant)`. In the bevy version in use the first
argument of `DynamicEnum::new` is the *variant name*, so the constructed
enum's variant name is the `name` argument (the caller passes the enum's
type path); the proxy's stored `variant` field is never read. The fresh
`DynamicEnum` has no represented type set. -/
def into_enum (kind : VariantKindV) (name : String) : DynEnumV :=
  { type_name := "bevy_reflect::DynamicEnum"
    variant_name := name
    payload := kindToVariant kind }

/-- `Reflect::apply` of one dynamic enum onto another: same variant name
means a field-wise apply (which, for the fully-specified dynamic payloads
that occur here, replaces the payload); a different variant name switches
the receiver to the incoming variant. -/
def dynEnumApply (self other : DynEnumV) : DynEnumV :=
  if self.variant_name = other.variant_name then
    { self with payload := other.payload }
  else
    { self with variant_name := other.variant_name, payload := other.payload }

/-- `Ctors::first()` followed by `Ctor::start(value)`: ensure session 0
exists, then set its value and mark it fresh. -/
def ctorsFirstStart (cs : List CtorM) (value : DynVal) : List CtorM :=
  match cs with
  | [] => [{ value := some value, fresh := true }]
  | _ :: rest => { value := some value, fresh := true } :: rest

/-- The body of the click handler in `variant_menu_button` (`editors.rs`),
for a click on `variant` while editing `repr`: synthesize a default proxy
for the variant; a unit variant is applied to `repr` immediately via
`into_enum`, any other variant starts constructor session 0; if synthesis
returns `None` the `else` branch is an empty `// TODO: Failure` comment and
nothing happens — in particular no popup is pushed. Returns the edited
enum, the enum widget's constructor sessions, and the popup queue. -/
def variant_click (fuel : Nat) (reg : RegistryI) (variant : VariantInfoI)
    (repr : DynEnumV) (cs : List CtorM) (popups : List String) :
    RRes (DynEnumV × List CtorM × List String) :=
  RRes.bind (default_variant_value fuel reg variant) (fun val? =>
    match val? with
    | some value =>
      match variant with
      | .vunit _ =>
        match value with
        | .proxy _ kind =>
          .ret (dynEnumApply repr (into_enum kind repr.type_name), cs, popups)
        | _ => .panic
      | _ => .ret (repr, ctorsFirstStart cs value, popups)
    | none => .ret (repr, cs, popups))

/-! ## Numeric text editor (`num_editor`) -/

/-- A local discriminant of a widget id: `push_id` with an integer, or a
string source such as a collapsing-header title or `"ctor"`. -/
inductive Discrim : Type where
  | num (n : Nat)
  | str (s : String)
deriving Repr, DecidableEq

/-- A stable widget identity: the path of discriminants from the root. -/
abbrev WId := List Discrim

/-- Transient per-widget editor state (`EditorState` in `editors.rs`). -/
inductive EditorState : Type where
  | textEdit (temp_value : String)
  | composite
deriving Repr, DecidableEq

/-- The `state` map of `EditorStates`, as an association list. -/
abbrev StateMap := List (WId × EditorState)

/-- `EditorStates::get`-style lookup. -/
def lookupState (s : StateMap) (id : WId) : Option EditorState :=
  (s.find? (fun p => p.1 == id)).map (·.2)

/-- Map insert (replace if present, append otherwise). -/
def insertState (s : StateMap) (id : WId) (st : EditorState) : StateMap :=
  if s.any (fun p => p.1 == id) then
    s.map (fun p => if p.1 == id then (id, st) else p)
  else
    s ++ [(id, st)]

/-- `EditorStates::remove`. -/
def eraseState (s : StateMap) (id : WId) : StateMap :=
  s.filter (fun p => !(p.1 == id))

/-- `num_editor::<T>` from `editors.rs`, generic over the field type `T`
exactly as the Rust function is generic over `T: FromStr + Display` (the
parser and printer are passed explicitly). Inputs beyond the program state:
`typed` is the buffer contents after `text_edit_singleline` ran (the user's
keystrokes mutate the buffer in place), `lost_focus`/`has_focus` are the
response flags of that widget. `text_edit()` panics if the persisted state
under this id is `Composite`. Returns the field's value after a possible
`repr.apply` together with the updated state map. -/
def num_editor {T : Type} (parse : String → Option T) (toStr : T → String)
    (value : T) (id : WId) (states : StateMap) (typed : String)
    (lost_focus has_focus : Bool) : RRes (T × StateMap) :=
  match lookupState states id with
  | some .composite => .panic
  | st =>
    let states1 := match st with
      | none => insertState states id (.textEdit (toStr value))
      | some _ => states
    let states2 := insertState states1 id (.textEdit typed)
    if lost_focus then
      let value1 := (parse typed).getD value
      let states3 := eraseState states2 id
      let states4 := if has_focus then states3 else eraseState states3 id
      .ret (value1, states4)
    else
      if has_focus then .ret (value, states2)
      else .ret (value, eraseState states2 id)

/-- The committed field value of a finished editor run (`none` on panic). -/
def committedValue {T : Type} : RRes (T × StateMap) → Option T
  | .ret (v, _) => some v
  | _ => none

/-- Whether a finished editor run left no state entry under `id`. -/
def bufferRemoved {T : Type} (r : RRes (T × StateMap)) (id : WId) : Bool :=
  match r with
  | .ret (_, s) => (lookupState s id).isNone
  | _ => false

/-! ## Entity snapshot (`EntityComponents::from_entity`, `collect_entity_state`) -/

/-- What `from_entity` reads about one component of the entity's archetype:
`world.components().get_name(comp)`, the fallback
`get_info(comp).map(type_id)` (already Debug-rendered to a string), and the
Debug rendering of the `ComponentId` itself. -/
structure CompInfo where
  cname : Option String
  ctype_id : Option String
  cid : String

/-- The slice of the live `World` that `from_entity` and
`collect_entity_state` consult: the alive entities with their archetype
components, and `get_reflect_impl` composed with `ReflectComponent::reflect`
— `reflect_impls name` is `None` when the registry has no
`ReflectComponent` for `name`, otherwise the per-entity reflect-and-clone
function. -/
structure WorldM where
  entities : List (Nat × List CompInfo)
  reflect_impls : String → Option (Nat → Option DynVal)

/-- An entity's captured component state (`EntityComponents`). -/
structure EntityComponents where
  components : List String
  reprs : List (String × DynVal)

/-- Lexicographic comparison of char sequences by code point. UTF-8 byte
order coincides with code-point order, so this is Rust's `Ord` on `String`. -/
def charsLe : List Char → List Char → Bool
  | [], _ => true
  | _ :: _, [] => false
  | a :: as, b :: bs =>
    if a.toNat < b.toNat then true
    else if b.toNat < a.toNat then false
    else charsLe as bs

/-- Rust's ascending `Ord` on strings. -/
def strLe (a b : String) : Bool := charsLe a.data b.data

/-- One step of insertion sort with a boolean comparison. -/
def orderedInsertB {α : Type} (le : α → α → Bool) (a : α) : List α → List α
  | [] => [a]
  | b :: l => if le a b then a :: b :: l else b :: orderedInsertB le a l

/-- Insertion sort with a boolean comparison (`sort_unstable` produces the
same ascending sequence; equal strings are indistinguishable, so stability
and algorithm choice are irrelevant). -/
def insertionSortB {α : Type} (le : α → α → Bool) : List α → List α
  | [] => []
  | a :: l => orderedInsertB le a (insertionSortB le l)

/-- `HashMap::insert` on the reprs map. -/
def insertRepr (m : List (String × DynVal)) (name : String) (v : DynVal) :
    List (String × DynVal) :=
  if m.any (fun p => p.1 == name) then
    m.map (fun p => if p.1 == name then (name, v) else p)
  else
    m ++ [(name, v)]

/-- The component loop of `from_entity`: for each archetype component push a
display name (the type name, else `TypeId({id:?}` — the source's format
string lacks the closing parenthesis — else `ComponentId({comp:?})`), and
insert a cloned repr when the component has a name, a `ReflectComponent`
registration, and a reflectable value on this entity. -/
def from_entity_loop (w : WorldM) (e : Nat) :
    List CompInfo → List String → List (String × DynVal) →
    List String × List (String × DynVal)
  | [], components, reprs => (components, reprs)
  | c :: rest, components, reprs =>
    match c.cname with
    | some name =>
      let reprs1 := match w.reflect_impls name with
        | some refl =>
          match refl e with
          | some repr => insertRepr reprs name repr
          | none => reprs
        | none => reprs
      from_entity_loop w e rest (components ++ [name]) reprs1
    | none =>
      match c.ctype_id with
      | some tid => from_entity_loop w e rest (components ++ ["TypeId(" ++ tid]) reprs
      | none =>
        from_entity_loop w e rest (components ++ ["ComponentId(" ++ c.cid ++ ")"]) reprs

/-- `EntityComponents::from_entity(world, entity)`:
`world.entities().get(entity).unwrap()` panics when the entity is no longer
alive; otherwise the component list is collected and sorted ascending
(`sort_unstable`, modelled by insertion sort — equal strings are
indistinguishable, so stability is irrelevant). -/
def from_entity (w : WorldM) (e : Nat) : RRes EntityComponents :=
  match (w.entities.find? (fun p => p.1 == e)).map (·.2) with
  | none => .panic
  | some comps =>
    let st := from_entity_loop w e comps [] []
    .ret { components := insertionSortB strLe st.1, reprs := st.2 }

/-- The `SelectedEntity` resource. -/
structure SelectedEntityM where
  sid : Nat
  sname : String
  sstate : EntityComponents

/-- `collect_entity_state` (runs every cycle before the window draws): if a
`SelectedEntity` resource exists, recapture its component state from the
live store. -/
def collect_entity_state (w : WorldM) (sel : Option SelectedEntityM) :
    RRes (Option SelectedEntityM) :=
  match sel with
  | none => .ret none
  | some s =>
    match from_entity w s.sid with
    | .ret st => .ret (some { sid := s.sid, sname := s.sname, sstate := st })
    | .panic => .panic
    | .outOfFuel => .outOfFuel

/-! ## The rendering pass (shape dispatcher + editors), for freshness claims

We model one quiescent rendering cycle of the generic editors: the user
presses no key and clicks nothing, so text buffers are not retyped, focus is
not lost, no menu entry and no `apply` button is clicked. Two oracles stand
in for egui's own memory: `opq id` tells whether the collapsing header whose
body lives at `id` is open (collapsing bodies only run when open), and
`focq id` tells whether the text field at `id` has keyboard focus (an
unfocused `num_editor`/`string_editor` removes its state at the end of the
frame). Widget ids follow egui's derivation shape: `push_id(i)` appends a
numeric discriminant, a collapsing body or the constructor window appends a
string discriminant. -/

/-- The `ctors` map of `EditorStates`. -/
abbrev CtorsMap := List (WId × List CtorM)

/-- Lookup in the ctors map. -/
def lookupCtors (m : CtorsMap) (id : WId) : Option (List CtorM) :=
  (m.find? (fun p => p.1 == id)).map (·.2)

/-- Replace-or-append insert into the ctors map (`HashMap::insert`). -/
def setCtors (m : CtorsMap) (id : WId) (cs : List CtorM) : CtorsMap :=
  if m.any (fun p => p.1 == id) then
    m.map (fun p => if p.1 == id then (id, cs) else p)
  else
    m ++ [(id, cs)]

/-- The whole `EditorStates` resource: per-widget editor state plus
per-widget constructor sessions. -/
structure RState where
  states : StateMap
  ctors : CtorsMap

/-- The log of a render pass: for every widget that consulted the state
store for its own id (`EditorStates::init` or `get_or`), the id together
with whether an entry was already present at that moment. -/
abbrev RLog := List (WId × Bool)

/-- Whether an optional state entry is a text buffer (`state.composite()`
and `state.text_edit()` panic on the wrong variant). -/
def isTextEditState : Option EditorState → Bool
  | some (.textEdit _) => true
  | _ => false

/-- Child ids for the rows of a composite/list/array/map body: row `i`
renders under `push_id(off + i)` (`off` is nonzero only for the map editor,
which pushes `repr_len + i`). -/
def idxChildren (base : WId) (off : Nat) : List DynVal → List (WId × DynVal)
  | [] => []
  | v :: rest => (base ++ [Discrim.num off], v) :: idxChildren base (off + 1) rest

/-- `num_editor`/`string_editor` under no input: `get_or` installs the
committed value's rendering as the buffer if absent (panicking via
`text_edit()` if a `Composite` entry sits there), `lost_focus()` is false,
and an unfocused field removes its entry at the end. -/
def leaf_text_render (initial : String) (id : WId) (focq : WId → Bool)
    (s : RState) : RRes (RState × RLog) :=
  match lookupState s.states id with
  | some .composite => .panic
  | some (.textEdit _) =>
    if focq id then .ret (s, [(id, true)])
    else .ret ({ s with states := eraseState s.states id }, [(id, true)])
  | none =>
    let s1 : RState := { s with states := insertState s.states id (.textEdit initial) }
    if focq id then .ret (s1, [(id, false)])
    else .ret ({ s1 with states := eraseState s1.states id }, [(id, false)])

/-- The dispatch body of one editor invocation: the `ReprEditors::get`
dispatch on the value's `type_name` followed by the chosen editor, as in the
default table. The fallback `REFLECT_EDITOR` matches `reflect_mut()` and
routes to the composite/list/array/map/enum editors (`rc`/`re` are those
editors, instantiated by `render_value` with the recursive renderers at the
next fuel level); primitive editors `unwrap` their downcasts. The
`reflect_mut()` arm for a `VariantProxy` value is unreachable through this
dispatch (its type name is seeded in the table). -/
def render_value_body
    (rc : Bool → Bool → String → WId → Nat → List DynVal → RState → RRes (RState × RLog))
    (re : String → DynVariantV → WId → RState → RRes (RState × RLog))
    (focq : WId → Bool) (v : DynVal) (id : WId) (s : RState) : RRes (RState × RLog) :=
  match reprEditorsDefault.get v.type_name with
  | .boolE =>
    match v with
    | .pbool _ => .ret (s, [])
    | _ => .panic
  | .numE _ =>
    match v with
    | .pnum _ n => leaf_text_render (toString n) id focq s
    | _ => .panic
  | .stringE =>
    match v with
    | .pstr str => leaf_text_render str id focq s
    | _ => .panic
  | .proxyE =>
    match v with
    | .proxy _ kind =>
      match kind with
      | .kstruct fs => rc true true "" id 0 (fs.map (·.2)) s
      | .ktuple fs => rc true true "" id 0 fs s
      | .kunit => .ret (s, [])
    | _ => .panic
  | .reflectE =>
    match v with
    | .dynStruct name fs => rc true false name id 0 (fs.map (·.2)) s
    | .dynTupleStruct name fs => rc true false name id 0 fs s
    | .dynTuple name fs => rc true false name id 0 fs s
    | .dynList name items => rc false false name id 0 items s
    | .dynArray name items => rc true false name id 0 items s
    | .dynMap name entries => rc false false name id entries.length (entries.map (·.2)) s
    | .dynEnum name _ payload => re name payload id s
    | .pbool _ => .ret (s, [])
    | .pnum _ _ => .ret (s, [])
    | .pstr _ => .ret (s, [])
    | .proxy _ _ => .ret (s, [])

mutual
/-- One editor invocation on a value at a widget id, at decremented fuel. -/
def render_value (fuel : Nat) (reg : RegistryI) (opq focq : WId → Bool)
    (v : DynVal) (id : WId) (s : RState) : RRes (RState × RLog) :=
  match fuel with
  | 0 => .outOfFuel
  | f + 1 =>
    render_value_body (render_comp f reg opq focq) (render_enum f reg opq focq) focq v id s

/-- `enum_editor` under no input: the enum's `TypeInfo` is looked up (a
miss, or a non-enum hit, only draws a label); inside the open collapsing
body come the variant menu (nothing clicked), `init` at the *outer* id with
the `composite()` assertion, the `states.ctors` block polling constructor
session 0 (a pending session renders its value inside the constructor
window, clearing that subtree first when session-fresh, and `apply` is not
clicked so only the session's freshness flag drops), and finally — for a
non-unit active variant — the active variant's payload through the headless
composite editor under `push_id(0)`, cleared first when the enum was
fresh. -/
def render_enum (fuel : Nat) (reg : RegistryI) (opq focq : WId → Bool)
    (name : String) (payload : DynVariantV) (id : WId) (s : RState) :
    RRes (RState × RLog) :=
  match fuel with
  | 0 => .outOfFuel
  | f + 1 =>
    match get_type_info reg name with
    | some (.tenum _ _) =>
      if opq (id ++ [Discrim.str name]) then
        if isTextEditState (lookupState s.states id) then .panic
        else
          let fresh := (lookupState s.states id).isNone
          let s1 : RState :=
            if fresh then { s with states := insertState s.states id .composite } else s
          match (if ((lookupCtors s1.ctors id).getD []).isEmpty then
              [{ value := none, fresh := false : CtorM }]
            else (lookupCtors s1.ctors id).getD []) with
          | [] => .panic
          | c0 :: restC =>
            RRes.bind
              (match c0.value with
               | none => .ret (c0, s1, ([] : RLog))
               | some cv =>
                 let wid := id ++ [Discrim.str name, Discrim.str "ctor", Discrim.num 0]
                 let s2 : RState :=
                   if c0.fresh then { s1 with states := eraseState s1.states wid } else s1
                 RRes.bind (render_value f reg opq focq cv wid s2) (fun r =>
                   .ret ({ value := c0.value, fresh := false }, r.1, r.2)))
              (fun pr =>
                match pr with
                | (c0', sP, lgP) =>
                  let s3 : RState := { sP with ctors := setCtors sP.ctors id (c0' :: restC) }
                  match payload with
                  | .unitV => .ret (s3, (id, !fresh) :: lgP)
                  | .structV fs =>
                    let pid := id ++ [Discrim.str name, Discrim.num 0]
                    let s4 : RState :=
                      if fresh then { s3 with states := eraseState s3.states pid } else s3
                    RRes.bind
                      (render_comp f reg opq focq true true name pid 0 (fs.map (·.2)) s4)
                      (fun r2 => .ret (r2.1, (id, !fresh) :: lgP ++ r2.2))
                  | .tupleV fs =>
                    let pid := id ++ [Discrim.str name, Discrim.num 0]
                    let s4 : RState :=
                      if fresh then { s3 with states := eraseState s3.states pid } else s3
                    RRes.bind
                      (render_comp f reg opq focq true true name pid 0 fs s4)
                      (fun r2 => .ret (r2.1, (id, !fresh) :: lgP ++ r2.2)))
      else .ret (s, [])
    | _ => .ret (s, [])

/-- The shared body of `composite_editor`, `list_editor`, `array_editor`
and `map_editor`: `init` at the widget's own id (with the `composite()`
assertion when `check` holds — the list and map editors skip it), a
collapsing header named by the type (skipped when `headless`), and one row
per child, where a fresh parent removes the child's persisted state right
before the child's editor runs. -/
def render_comp (fuel : Nat) (reg : RegistryI) (opq focq : WId → Bool)
    (check headless : Bool) (name : String) (id : WId) (off : Nat)
    (children : List DynVal) (s : RState) : RRes (RState × RLog) :=
  match fuel with
  | 0 => .outOfFuel
  | f + 1 =>
    if check && isTextEditState (lookupState s.states id) then .panic
    else
      let fresh := (lookupState s.states id).isNone
      let s1 : RState :=
        if fresh then { s with states := insertState s.states id .composite } else s
      let base := if headless then id else id ++ [Discrim.str name]
      if headless || opq base then
        RRes.bind (render_children f reg opq focq fresh (idxChildren base off children) s1)
          (fun r => .ret (r.1, (id, !fresh) :: r.2))
      else .ret (s1, [(id, !fresh)])

/-- The row loop: when the parent is fresh, each child id is removed from
the store immediately before that child's editor renders. -/
def render_children (fuel : Nat) (reg : RegistryI) (opq focq : WId → Bool)
    (fresh : Bool) (pairs : List (WId × DynVal)) (s : RState) : RRes (RState × RLog) :=
  match fuel with
  | 0 => .outOfFuel
  | f + 1 =>
    match pairs with
    | [] => .ret (s, [])
    | (cid, v) :: rest =>
      let s0 : RState := if fresh then { s with states := eraseState s.states cid } else s
      RRes.bind (render_value f reg opq focq v cid s0) (fun r1 =>
        RRes.bind (render_children f reg opq focq fresh rest r1.1) (fun r2 =>
          .ret (r2.1, r1.2 ++ r2.2)))
end

/-- No constructor session in the store holds a pending value (sessions are
deliberately long-lived, so the freshness claim is stated for stores without
an in-progress session window). -/
def noPend (s : RState) : Bool :=
  s.ctors.all (fun p => p.2.all (fun c => c.value.isNone))

/-- Every widget in the log found its id absent when it consulted the
store. -/
def flagsOk (lg : RLog) : Bool := lg.all (fun e => !e.2)

/-! ## Helper lemmas -/

/-- Looking up an id in a state map it was just erased from finds nothing. -/
theorem lookupState_eraseState (s : StateMap) (id : WId) :
    lookupState (eraseState s id) id = none := by
  induction s with
  | nil => rfl
  | cons p rest ih =>
    by_cases h : p.1 == id
    · simpa [eraseState, List.filter, h] using ih
    · simp [eraseState, lookupState, List.filter, List.find?, h, ih]

/-- `charsLe` is total. -/
theorem charsLe_total : ∀ as bs, charsLe as bs = true ∨ charsLe bs as = true := by
  intro as
  induction as with
  | nil => intro bs; left; rfl
  | cons a as ih =>
    intro bs
    cases bs with
    | nil => right; rfl
    | cons b bs =>
      by_cases h1 : a.toNat < b.toNat
      · left; simp [charsLe, h1]
      · by_cases h2 : b.toNat < a.toNat
        · right; simp [charsLe, h1, h2]
        · rcases ih bs with h | h
          · left; simp [charsLe, h1, h2, h]
          · right; simp [charsLe, h1, h2, h]

/-- `charsLe` is transitive. -/
theorem charsLe_trans :
    ∀ as bs cs, charsLe as bs = true → charsLe bs cs = true → charsLe as cs = true := by
  intro as
  induction as with
  | nil => intro bs cs _ _; rfl
  | cons a as ih =>
    intro bs cs hab hbc
    cases bs with
    | nil => simp [charsLe] at hab
    | cons b bs =>
      cases cs with
      | nil => simp [charsLe] at hbc
      | cons c cs =>
        simp only [charsLe] at hab hbc ⊢
        by_cases h1 : a.toNat < b.toNat
        · by_cases h2 : b.toNat < c.toNat
          · simp [show a.toNat < c.toNat by omega]
          · rw [if_neg h2] at hbc
            by_cases h3 : c.toNat < b.toNat
            · rw [if_pos h3] at hbc; exact absurd hbc (by simp)
            · simp [show a.toNat < c.toNat by omega]
        · rw [if_neg h1] at hab
          by_cases h4 : b.toNat < a.toNat
          · rw [if_pos h4] at hab; exact absurd hab (by simp)
          · rw [if_neg h4] at hab
            by_cases h2 : b.toNat < c.toNat
            · simp [show a.toNat < c.toNat by omega]
            · rw [if_neg h2] at hbc
              by_cases h3 : c.toNat < b.toNat
              · rw [if_pos h3] at hbc; exact absurd hbc (by simp)
              · rw [if_neg h3] at hbc
                rw [if_neg (show ¬a.toNat < c.toNat by omega),
                  if_neg (show ¬c.toNat < a.toNat by omega)]
                exact ih bs cs hab hbc

/-- `strLe` is total. -/
theorem strLe_total (a b : String) : strLe a b = true ∨ strLe b a = true :=
  charsLe_total a.data b.data

/-- `strLe` is transitive. -/
theorem strLe_trans (a b c : String) :
    strLe a b = true → strLe b c = true → strLe a c = true :=
  charsLe_trans a.data b.data c.data

/-- Membership through `orderedInsertB`, forward direction. -/
theorem mem_orderedInsertB {α : Type} (le : α → α → Bool) (a x : α) :
    ∀ l, x ∈ orderedInsertB le a l → x = a ∨ x ∈ l := by
  intro l
  induction l with
  | nil => intro hm; left; simpa [orderedInsertB] using hm
  | cons b l ih =>
    intro hm
    simp only [orderedInsertB] at hm
    cases hab : le a b with
    | true =>
      rw [hab] at hm
      simp only [if_true] at hm
      exact List.mem_cons.mp hm
    | false =>
      rw [hab] at hm
      simp only [Bool.false_eq_true, if_false] at hm
      rcases List.mem_cons.mp hm with h1 | h1
      · right; rw [h1]; exact List.mem_cons_self b l
      · rcases ih h1 with h2 | h2
        · left; exact h2
        · right; exact List.mem_cons_of_mem b h2

/-- The inserted element is in the result. -/
theorem self_mem_orderedInsertB {α : Type} (le : α → α → Bool) (a : α) :
    ∀ l, a ∈ orderedInsertB le a l := by
  intro l
  induction l with
  | nil => simp [orderedInsertB]
  | cons b l ih =>
    simp only [orderedInsertB]
    cases hab : le a b with
    | true => simp
    | false => simpa using Or.inr ih

/-- Old elements survive `orderedInsertB`. -/
theorem mem_orderedInsertB_of_mem {α : Type} (le : α → α → Bool) (a x : α) :
    ∀ l, x ∈ l → x ∈ orderedInsertB le a l := by
  intro l
  induction l with
  | nil => intro hm; cases hm
  | cons b l ih =>
    intro hm
    simp only [orderedInsertB]
    cases hab : le a b with
    | true => simpa using Or.inr hm
    | false =>
      rcases List.mem_cons.mp hm with h1 | h1
      · simp [h1]
      · simpa using Or.inr (ih h1)

/-- Membership through `insertionSortB`. -/
theorem mem_insertionSortB {α : Type} (le : α → α → Bool) (x : α) :
    ∀ l, x ∈ l → x ∈ insertionSortB le l := by
  intro l
  induction l with
  | nil => intro hm; cases hm
  | cons a l ih =>
    intro hm
    simp only [insertionSortB]
    rcases List.mem_cons.mp hm with h1 | h1
    · rw [h1]; exact self_mem_orderedInsertB le a _
    · exact mem_orderedInsertB_of_mem le a x _ (ih h1)

/-- `orderedInsertB` preserves sortedness for a total transitive boolean
comparison. -/
theorem sorted_orderedInsertB {α : Type} (le : α → α → Bool)
    (total : ∀ a b, le a b = true ∨ le b a = true)
    (trans : ∀ a b c, le a b = true → le b c = true → le a c = true) (a : α) :
    ∀ l, List.Pairwise (fun x y => le x y = true) l →
      List.Pairwise (fun x y => le x y = true) (orderedInsertB le a l) := by
  intro l
  induction l with
  | nil => intro _; simp [orderedInsertB]
  | cons b l ih =>
    intro hp
    rcases List.pairwise_cons.mp hp with ⟨hb, hl⟩
    simp only [orderedInsertB]
    cases hab : le a b with
    | true =>
      simp only [if_true]
      refine List.pairwise_cons.mpr ⟨?_, hp⟩
      intro x hx
      rcases List.mem_cons.mp hx with h1 | h1
      · rw [h1]; exact hab
      · exact trans a b x hab (hb x h1)
    | false =>
      simp only [Bool.false_eq_true, if_false]
      refine List.pairwise_cons.mpr ⟨?_, ih hl⟩
      intro x hx
      rcases mem_orderedInsertB le a x l hx with h1 | h1
      · rw [h1]
        rcases total a b with h2 | h2
        · rw [h2] at hab; cases hab
        · exact h2
      · exact hb x h1

/-- `insertionSortB` sorts, for a total transitive boolean comparison. -/
theorem sorted_insertionSortB {α : Type} (le : α → α → Bool)
    (total : ∀ a b, le a b = true ∨ le b a = true)
    (trans : ∀ a b c, le a b = true → le b c = true → le a c = true) :
    ∀ l, List.Pairwise (fun x y => le x y = true) (insertionSortB le l) := by
  intro l
  induction l with
  | nil => simp [insertionSortB]
  | cons a l ih => exact sorted_orderedInsertB le total trans a _ ih

/-- Inversion of a successful `RRes.bind`. -/
theorem RRes.bind_eq_ret {α β : Type} {x : RRes α} {fn : α → RRes β} {b : β}
    (h : RRes.bind x fn = .ret b) : ∃ a, x = .ret a ∧ fn a = .ret b := by
  cases x with
  | ret a => exact ⟨a, rfl, h⟩
  | panic => simp [RRes.bind] at h
  | outOfFuel => simp [RRes.bind] at h

/-- Replacing only the `states` component leaves `noPend` unchanged. -/
theorem noPend_set_states (x : StateMap) (s : RState) :
    noPend { s with states := x } = noPend s := rfl

/-- `noPend` gives all-none sessions at every id present in the map. -/
theorem lookupCtors_all_none {m : CtorsMap} {id : WId} {cs : List CtorM}
    (h : m.all (fun p => p.2.all (fun c => c.value.isNone)) = true)
    (hl : lookupCtors m id = some cs) :
    cs.all (fun c => c.value.isNone) = true := by
  induction m with
  | nil => simp [lookupCtors] at hl
  | cons p rest ih =>
    rw [List.all_cons, Bool.and_eq_true] at h
    by_cases hp : p.1 == id
    · simp only [lookupCtors, List.find?, hp] at hl
      cases hl
      exact h.1
    · simp only [lookupCtors, List.find?, hp] at hl
      exact ih h.2 hl

/-- Writing an all-none session list preserves the all-none property. -/
theorem setCtors_all_none {m : CtorsMap} {id : WId} {cs : List CtorM}
    (h : m.all (fun p => p.2.all (fun c => c.value.isNone)) = true)
    (hcs : cs.all (fun c => c.value.isNone) = true) :
    (setCtors m id cs).all (fun p => p.2.all (fun c => c.value.isNone)) = true := by
  unfold setCtors
  split
  · rw [List.all_eq_true]
    intro p hp
    obtain ⟨q, hq, he⟩ := List.mem_map.mp hp
    by_cases hqi : q.1 == id
    · rw [if_pos hqi] at he
      rw [← he]
      exact hcs
    · rw [if_neg hqi] at he
      rw [← he]
      exact List.all_eq_true.mp h q hq
  · rw [List.all_append, Bool.and_eq_true]
    exact ⟨h, by simpa using hcs⟩

/-- `leaf_text_render` never touches the ctors map, and logs a fresh check
when its id was absent. -/
theorem leaf_text_render_inv {init : String} {id : WId} {focq : WId → Bool}
    {s s' : RState} {lg : RLog}
    (h : leaf_text_render init id focq s = .ret (s', lg)) :
    s'.ctors = s.ctors ∧
      ((lookupState s.states id).isNone = true → flagsOk lg = true) := by
  unfold leaf_text_render at h
  cases hl : lookupState s.states id with
  | none =>
    simp only [hl] at h
    split at h
    · cases h; exact ⟨rfl, fun _ => rfl⟩
    · cases h; exact ⟨rfl, fun _ => rfl⟩
  | some st =>
    cases st with
    | composite => simp only [hl] at h; exact RRes.noConfusion h
    | textEdit t =>
      simp only [hl] at h
      split at h
      · cases h; exact ⟨rfl, by simp [hl]⟩
      · cases h; exact ⟨rfl, by simp [hl]⟩

/-- Invariant of `render_value` at a given fuel: a quiescent render over a
store with no pending constructor sessions keeps the store pending-free,
and when the root id was absent from the state store, every state-store
check logged in the subtree came up absent. -/
def PV (fuel : Nat) : Prop :=
  ∀ reg opq focq v id s s' lg, noPend s = true →
    render_value fuel reg opq focq v id s = .ret (s', lg) →
    noPend s' = true ∧ ((lookupState s.states id).isNone = true → flagsOk lg = true)

/-- Invariant of `render_enum` at a given fuel. -/
def PE (fuel : Nat) : Prop :=
  ∀ reg opq focq name payload id s s' lg, noPend s = true →
    render_enum fuel reg opq focq name payload id s = .ret (s', lg) →
    noPend s' = true ∧ ((lookupState s.states id).isNone = true → flagsOk lg = true)

/-- Invariant of `render_comp` at a given fuel. -/
def PC (fuel : Nat) : Prop :=
  ∀ reg opq focq check headless name id off children s s' lg, noPend s = true →
    render_comp fuel reg opq focq check headless name id off children s = .ret (s', lg) →
    noPend s' = true ∧ ((lookupState s.states id).isNone = true → flagsOk lg = true)

/-- Invariant of `render_children` at a given fuel: under a fresh parent
every check in the row loop's log came up absent. -/
def PK (fuel : Nat) : Prop :=
  ∀ reg opq focq fresh pairs s s' lg, noPend s = true →
    render_children fuel reg opq focq fresh pairs s = .ret (s', lg) →
    noPend s' = true ∧ (fresh = true → flagsOk lg = true)

/-- Step case of the row-loop invariant: each child id is erased right
before the child renders, so under a fresh parent the child renders with
its id absent and the induction hypothesis applies. -/
theorem stepK (f : Nat) (hV : PV f) (hK : PK f) : PK (f + 1) := by
  intro reg opq focq fresh pairs s s' lg hnp hret
  rw [render_children.eq_def] at hret
  cases pairs with
  | nil =>
    cases hret
    exact ⟨hnp, fun _ => rfl⟩
  | cons hd rest =>
    obtain ⟨cid, v⟩ := hd
    simp only [] at hret
    obtain ⟨r1, h1, hrest⟩ := RRes.bind_eq_ret hret
    obtain ⟨s1n, lg1⟩ := r1
    obtain ⟨r2, h2, h3⟩ := RRes.bind_eq_ret hrest
    obtain ⟨s2n, lg2⟩ := r2
    simp only [RRes.ret.injEq, Prod.mk.injEq] at h3
    obtain ⟨rfl, rfl⟩ := h3
    have hnp0 : noPend (if fresh then { s with states := eraseState s.states cid } else s)
        = true := by
      cases fresh <;> simpa [noPend_set_states] using hnp
    obtain ⟨hA, hB⟩ := hV reg opq focq v cid _ s1n lg1 hnp0 h1
    obtain ⟨hC, hD⟩ := hK reg opq focq fresh rest s1n s2n lg2 hA h2
    refine ⟨hC, ?_⟩
    intro hfr
    subst hfr
    rw [flagsOk, List.all_append]
    have hB1 : flagsOk lg1 = true := by
      refine hB ?_
      simp [lookupState_eraseState]
    rw [Bool.and_eq_true]
    exact ⟨hB1, hD rfl⟩

/-- Step case for the shared composite/list/array/map body: the root check
is the freshness test itself, and the row loop runs under that freshness. -/
theorem stepC (f : Nat) (hK : PK f) : PC (f + 1) := by
  intro reg opq focq check headless name id off children s s' lg hnp hret
  rw [render_comp.eq_def] at hret
  simp only [] at hret
  split at hret
  · exact RRes.noConfusion hret
  · split at hret
    all_goals split at hret
    all_goals
      first
      | · obtain ⟨r, h1, h2⟩ := RRes.bind_eq_ret hret
          obtain ⟨sn, lgn⟩ := r
          simp only [RRes.ret.injEq, Prod.mk.injEq] at h2
          obtain ⟨rfl, rfl⟩ := h2
          have hnp1 : noPend (if (lookupState s.states id).isNone = true then
              { s with states := insertState s.states id .composite } else s) = true := by
            cases h : (lookupState s.states id).isNone <;>
              simp [noPend_set_states, h, hnp]
          obtain ⟨hA, hB⟩ := hK reg opq focq _ _ _ sn lgn hnp1 h1
          refine ⟨hA, ?_⟩
          intro hid
          simp only [flagsOk, List.all_cons, hid, Bool.not_true, Bool.not_false,
            Bool.true_and]
          exact hB hid
      | · cases hret
          constructor
          · cases h : (lookupState s.states id).isNone <;>
              simp [noPend_set_states, h, hnp]
          · intro hid
            simp [flagsOk, hid]

/-- Both branches of a states-only update keep the ctors component. -/
theorem ctors_if_set_states (c : Prop) [Decidable c] (s : RState) (x : StateMap) :
    (if c then { s with states := x } else s).ctors = s.ctors := by
  split <;> rfl

/-- Step case for the enum editor: the root check is the freshness test, no
session is pending (so the constructor window does not render), and the
payload child is erased right before the headless composite renders it. -/
theorem stepE (f : Nat) (hC : PC f) : PE (f + 1) := by
  intro reg opq focq name payload id s s' lg hnp hret
  rw [render_enum.eq_def] at hret
  simp only [] at hret
  split at hret
  all_goals try (cases hret; exact ⟨hnp, fun _ => rfl⟩)
  split at hret
  all_goals try (cases hret; exact ⟨hnp, fun _ => rfl⟩)
  split at hret
  all_goals try (exact RRes.noConfusion hret)
  split at hret
  all_goals try (exact RRes.noConfusion hret)
  rename_i cs0 c0 restC hcs1
  simp only [ctors_if_set_states] at hcs1
  have hcl : ∀ c, c ∈ (c0 :: restC) → c.value = none := by
    intro c hc
    rw [← hcs1] at hc
    split at hc
    · simp only [List.mem_singleton] at hc
      rw [hc]
    · cases hl : lookupCtors s.ctors id with
      | none => rw [hl] at hc; simp at hc
      | some csl =>
        rw [hl] at hc
        simp only [Option.getD_some] at hc
        have hall := lookupCtors_all_none hnp hl
        exact Option.isNone_iff_eq_none.mp (List.all_eq_true.mp hall c hc)
  have hall : (c0 :: restC).all (fun c => c.value.isNone) = true :=
    List.all_eq_true.mpr (fun c hc => by rw [hcl c hc]; rfl)
  have hc0 : c0.value = none := hcl c0 (List.mem_cons_self c0 restC)
  rw [hc0] at hret
  simp only [RRes.bind] at hret
  split at hret
  · cases hret
    constructor
    · simp only [noPend]
      rw [ctors_if_set_states]
      exact setCtors_all_none hnp hall
    · intro hid
      simp [flagsOk, hid]
  · obtain ⟨r2, hcomp, h2⟩ := RRes.bind_eq_ret hret
    obtain ⟨s5, lg5⟩ := r2
    simp only [RRes.ret.injEq, Prod.mk.injEq] at h2
    obtain ⟨rfl, rfl⟩ := h2
    have hnp4 : noPend (if (lookupState s.states id).isNone = true then
        { states := eraseState
            (if (lookupState s.states id).isNone = true then
              { s with states := insertState s.states id .composite } else s).states
            (id ++ [Discrim.str name, Discrim.num 0]),
          ctors := setCtors
            (if (lookupState s.states id).isNone = true then
              { s with states := insertState s.states id .composite } else s).ctors
            id (c0 :: restC) }
      else
        { states := (if (lookupState s.states id).isNone = true then
            { s with states := insertState s.states id .composite } else s).states,
          ctors := setCtors
            (if (lookupState s.states id).isNone = true then
              { s with states := insertState s.states id .composite } else s).ctors
            id (c0 :: restC) }) = true := by
      split <;>
        (simp only [noPend, ctors_if_set_states]; exact setCtors_all_none hnp hall)
    obtain ⟨hA, hB⟩ := hC reg opq focq true true name _ 0 _ _ s5 lg5 hnp4 hcomp
    refine ⟨hA, ?_⟩
    intro hid
    have hpid : flagsOk lg5 = true := by
      refine hB ?_
      rw [if_pos hid]
      simp [lookupState_eraseState]
    simp [flagsOk, hid] at hpid ⊢
    exact hpid
  · obtain ⟨r2, hcomp, h2⟩ := RRes.bind_eq_ret hret
    obtain ⟨s5, lg5⟩ := r2
    simp only [RRes.ret.injEq, Prod.mk.injEq] at h2
    obtain ⟨rfl, rfl⟩ := h2
    have hnp4 : noPend (if (lookupState s.states id).isNone = true then
        { states := eraseState
            (if (lookupState s.states id).isNone = true then
              { s with states := insertState s.states id .composite } else s).states
            (id ++ [Discrim.str name, Discrim.num 0]),
          ctors := setCtors
            (if (lookupState s.states id).isNone = true then
              { s with states := insertState s.states id .composite } else s).ctors
            id (c0 :: restC) }
      else
        { states := (if (lookupState s.states id).isNone = true then
            { s with states := insertState s.states id .composite } else s).states,
          ctors := setCtors
            (if (lookupState s.states id).isNone = true then
              { s with states := insertState s.states id .composite } else s).ctors
            id (c0 :: restC) }) = true := by
      split <;>
        (simp only [noPend, ctors_if_set_states]; exact setCtors_all_none hnp hall)
    obtain ⟨hA, hB⟩ := hC reg opq focq true true name _ 0 _ _ s5 lg5 hnp4 hcomp
    refine ⟨hA, ?_⟩
    intro hid
    have hpid : flagsOk lg5 = true := by
      refine hB ?_
      rw [if_pos hid]
      simp [lookupState_eraseState]
    simp [flagsOk, hid] at hpid ⊢
    exact hpid

/-- A text-field editor invocation satisfies the render invariant. -/
theorem leaf_case_inv {init : String} {id : WId} {focq : WId → Bool}
    {s s' : RState} {lg : RLog} (hnp : noPend s = true)
    (h : leaf_text_render init id focq s = .ret (s', lg)) :
    noPend s' = true ∧ ((lookupState s.states id).isNone = true → flagsOk lg = true) :=
  ⟨by simp only [noPend] at hnp ⊢; rw [(leaf_text_render_inv h).1]; exact hnp,
   (leaf_text_render_inv h).2⟩

/-- Invariant of the dispatch body, for any shape editors `rc`/`re` that
themselves satisfy it: primitive editors either touch no state, run the
text-buffer protocol, or panic on a failed downcast. -/
theorem render_value_body_inv
    (rc : Bool → Bool → String → WId → Nat → List DynVal → RState → RRes (RState × RLog))
    (re : String → DynVariantV → WId → RState → RRes (RState × RLog))
    (focq : WId → Bool)
    (hc : ∀ check headless name id off children s s' lg, noPend s = true →
      rc check headless name id off children s = .ret (s', lg) →
      noPend s' = true ∧ ((lookupState s.states id).isNone = true → flagsOk lg = true))
    (he : ∀ name payload id s s' lg, noPend s = true →
      re name payload id s = .ret (s', lg) →
      noPend s' = true ∧ ((lookupState s.states id).isNone = true → flagsOk lg = true)) :
    ∀ v id s s' lg, noPend s = true →
      render_value_body rc re focq v id s = .ret (s', lg) →
      noPend s' = true ∧ ((lookupState s.states id).isNone = true → flagsOk lg = true) := by
  intro v id s s' lg hnp hret
  unfold render_value_body at hret
  split at hret
  all_goals split at hret
  all_goals try (split at hret)
  all_goals first
    | exact RRes.noConfusion hret
    | (cases hret; exact ⟨hnp, fun _ => rfl⟩)
    | exact leaf_case_inv hnp hret
    | exact hc _ _ _ _ _ _ _ s' lg hnp hret
    | exact he _ _ _ _ s' lg hnp hret

/-- Step case for the dispatching editor. -/
theorem stepV (f : Nat) (hE : PE f) (hC : PC f) : PV (f + 1) := by
  intro reg opq focq v id s s' lg hnp hret
  exact render_value_body_inv (render_comp f reg opq focq) (render_enum f reg opq focq)
    focq
    (fun check headless name id1 off children s1 s1' lg1 hnp1 h1 =>
      hC reg opq focq check headless name id1 off children s1 s1' lg1 hnp1 h1)
    (fun name payload id1 s1 s1' lg1 hnp1 h1 =>
      hE reg opq focq name payload id1 s1 s1' lg1 hnp1 h1)
    v id s s' lg hnp hret

/-- The render invariants hold at every fuel. -/
theorem render_inv : ∀ fuel : Nat, PV fuel ∧ PE fuel ∧ PC fuel ∧ PK fuel := by
  intro fuel
  induction fuel with
  | zero =>
    refine ⟨?_, ?_, ?_, ?_⟩
    · intro reg opq focq v id s s' lg _ hret
      exact RRes.noConfusion hret
    · intro reg opq focq name payload id s s' lg _ hret
      exact RRes.noConfusion hret
    · intro reg opq focq check headless name id off children s s' lg _ hret
      exact RRes.noConfusion hret
    · intro reg opq focq fresh pairs s s' lg _ hret
      exact RRes.noConfusion hret
  | succ f ih =>
    obtain ⟨hV, hE, hC, hK⟩ := ih
    exact ⟨stepV f hE hC, stepE f hC, stepC f hK, stepK f hV hK⟩

/-- Membership after a replace-or-append insert into the reprs map. -/
theorem mem_insertRepr {m : List (String × DynVal)} {name : String} {v : DynVal}
    {p : String × DynVal} (h : p ∈ insertRepr m name v) : p.1 = name ∨ p ∈ m := by
  unfold insertRepr at h
  split at h
  · obtain ⟨q, hq, he⟩ := List.mem_map.mp h
    by_cases hqn : q.1 == name
    · simp only [hqn, if_pos] at he
      left
      rw [← he]
    · simp only [hqn] at he
      right
      rw [← he]
      exact hq
  · rcases List.mem_append.mp h with h1 | h1
    · right
      exact h1
    · left
      simp only [List.mem_singleton] at h1
      rw [h1]

/-- Every key of the reprs map built by the component loop occurs among the
collected component names. -/
theorem from_entity_loop_keys (w : WorldM) (e : Nat) :
    ∀ (cs : List CompInfo) (components : List String) (reprs : List (String × DynVal)),
      (∀ p ∈ reprs, p.1 ∈ components) →
      ∀ p ∈ (from_entity_loop w e cs components reprs).2,
        p.1 ∈ (from_entity_loop w e cs components reprs).1 := by
  intro cs
  induction cs with
  | nil => intro components reprs h p hp; exact h p hp
  | cons c rest ih =>
    intro components reprs h p hp
    match hc : c.cname with
    | some name =>
      simp only [from_entity_loop, hc] at hp ⊢
      refine ih (components ++ [name]) _ ?_ p hp
      intro q hq
      split at hq
      · split at hq
        · rcases mem_insertRepr hq with h1 | h1
          · rw [h1]; simp
          · exact List.mem_append_left _ (h q h1)
        · exact List.mem_append_left _ (h q hq)
      · exact List.mem_append_left _ (h q hq)
    | none =>
      match hid : c.ctype_id with
      | some tid =>
        simp only [from_entity_loop, hc, hid] at hp ⊢
        exact ih _ _ (fun q hq => List.mem_append_left _ (h q hq)) p hp
      | none =>
        simp only [from_entity_loop, hc, hid] at hp ⊢
        exact ih _ _ (fun q hq => List.mem_append_left _ (h q hq)) p hp

/-! ## Claims -/

/-- Claim C1 (code bug). `default_value` is claimed total (Some) and
panic-free on shapes whose reachable sub-types are registered, enums
included. In the source, `default_variant_value` always returns a
`VariantProxy` — a concrete `#[derive(Reflect)]` struct — so in the enum arm
`reflect_ref()` is the `Struct` variant for every variant kind and
`downcast::<DynamicStruct>().unwrap()` is an unwrap on a failed downcast:
synthesizing a default for any enum shape panics. Evaluated here on an enum
with a single unit variant (no registry lookups are even needed). -/
theorem claim_c1_default_value_enum_panics :
    default_value 2 [] (.tenum "demo::E" [.vunit "A"]) = .panic := rfl

/-- Claim C2 (code bug). The per-cycle refresh is claimed not to crash when
the selected entity has disappeared, instead clearing the selection. In the
source, `collect_entity_state` re-runs `EntityComponents::from_entity`,
whose first line is `world.entities().get(entity).unwrap()`; for a despawned
entity the location lookup is `None` and the unwrap panics. Evaluated on a
world with no live entities and a selection pointing at entity 7. -/
theorem claim_c2_stale_selection_panics :
    collect_entity_state ⟨[], fun _ => none⟩
      (some ⟨7, "despawned", ⟨[], []⟩⟩) = .panic := rfl

/-- Claim C3 (code bug). On a variant click whose default synthesis fails,
the claim requires exactly one popup notification; in the source the failure
branch of `variant_menu_button` is an empty `// TODO: Failure` comment, so
the popup queue is unchanged (and so are the enum value and the constructor
sessions). Evaluated on a struct variant with a field of an unregistered
type against an empty popup queue: the queue stays empty. -/
theorem claim_c3_synthesis_failure_no_popup :
    variant_click 3 [] (.vstruct "S" [⟨"f", "demo::Missing"⟩])
      ⟨"demo::E", "A", .unitV⟩ [] [] =
      .ret (⟨"demo::E", "A", .unitV⟩, [], []) := rfl

/-- Claim C4 (confirmed). Text-edit commit law for `num_editor`: on focus
loss the buffer is parsed, a parse failure keeps the prior committed value
(`unwrap_or(value)`), a successful parse of `v2` commits `v2` (both cases
are `(parse typed).getD value`), and the transient buffer entry is removed
from the state store whatever the parse outcome. Hypothesis: the persisted
state under the field's id, if any, is a text buffer (a `Composite` entry
would make the source's `text_edit()` panic). -/
theorem claim_c4_text_commit {T : Type} (parse : String → Option T)
    (toStr : T → String) (value : T) (id : WId) (states : StateMap)
    (typed : String) (has_focus : Bool)
    (hbuf : lookupState states id ≠ some .composite) :
    committedValue (num_editor parse toStr value id states typed true has_focus) =
        some ((parse typed).getD value) ∧
      bufferRemoved (num_editor parse toStr value id states typed true has_focus) id
        = true := by
  unfold num_editor
  match hs : lookupState states id with
  | some .composite => exact absurd hs hbuf
  | some (.textEdit t) =>
    cases has_focus <;>
      simp [committedValue, bufferRemoved, lookupState_eraseState]
  | none =>
    cases has_focus <;>
      simp [committedValue, bufferRemoved, lookupState_eraseState]

/-- Witness for C4: a concrete run with unparseable text `"abc"` over an
empty state store keeps the committed value 7 and leaves no buffer entry. -/
theorem claim_c4_text_commit_witness :
    (lookupState ([] : StateMap) [] ≠ some .composite) ∧
      (committedValue (num_editor String.toInt? toString (7 : Int) [] [] "abc" true false) =
          some ((String.toInt? "abc").getD 7) ∧
        bufferRemoved (num_editor String.toInt? toString (7 : Int) [] [] "abc" true false) []
          = true) :=
  ⟨by simp [lookupState],
   claim_c4_text_commit String.toInt? toString 7 [] [] "abc" false
     (by simp [lookupState])⟩

/-- Claim C5 (code bug). The array arm of `default_value` is claimed to
produce an array of the declared length with each slot the default of the
*element* type. In the source the arm resolves `info.type_path()` — the
array's own type path, not the item's — so for a registered array of nonzero
capacity the recursion re-enters the very same array info and never
terminates: with explicit fuel the run is fuel-exhausted for every fuel
(the real code overflows the stack). Evaluated on a registered
single-element array type. -/
theorem claim_c5_default_value_array_diverges :
    ∀ fuel, default_value fuel [("A", .tarray "A" 1)] (.tarray "A" 1) = .outOfFuel := by
  intro fuel
  induction fuel with
  | zero => rfl
  | succ f ih => simp [default_value, get_type_info, List.find?, ih, synBind]

/-- Claim C6 (code bug). Selecting a unit variant is claimed to update the
enum to *that* variant. In the source the unit-click arm builds
`value.into_enum(repr.type_name())`, and `into_enum` passes that name
straight to `DynamicEnum::new`, whose first parameter is the *variant*
name — the proxy's stored `variant` field is never read. Clicking unit
variant `"B"` of `demo::E` (currently at variant `"A"`) therefore rewrites
the edited enum's variant name to `"demo::E"`, not `"B"` (no constructor
session is started, as claimed). -/
theorem claim_c6_unit_variant_applies_type_path :
    variant_click 3 [] (.vunit "B") ⟨"demo::E", "A", .unitV⟩ [] [] =
      .ret (⟨"demo::E", "demo::E", .unitV⟩, [], []) := rfl

/-- Claim C7 (confirmed). Freshness isolation: when an editor subtree is
rendered with its root id absent from the state store (the composite is
initialized fresh this cycle), every widget in the subtree — direct child or
deeper descendant, including untouched ones — finds its own id absent when
it consults the store, because a fresh parent removes each child's entry
immediately before that child renders and the freshness cascades. Stated
over the quiescent render pass with no pending constructor sessions
(sessions are deliberately long-lived across cycles and their windows are
separate top-level surfaces). -/
theorem claim_c7_freshness_isolation (fuel : Nat) (reg : RegistryI)
    (opq focq : WId → Bool) (v : DynVal) (id : WId) (s s' : RState) (lg : RLog)
    (hfresh : (lookupState s.states id).isNone = true)
    (hnopend : noPend s = true)
    (hrun : render_value fuel reg opq focq v id s = .ret (s', lg)) :
    flagsOk lg = true :=
  ((render_inv fuel).1 reg opq focq v id s s' lg hnopend hrun).2 hfresh

/-- Witness for C7: rendering the struct `demo::P { x: i32 }` fresh at the
root over a store carrying a stale text buffer for the field's id: the run
succeeds and every logged check (root and field) came up absent — the stale
buffer was removed before the field rendered. -/
theorem claim_c7_freshness_isolation_witness :
    ((lookupState
        ([([Discrim.str "demo::P", Discrim.num 0], EditorState.textEdit "stale")] :
          StateMap) []).isNone = true) ∧
      noPend ⟨[([Discrim.str "demo::P", Discrim.num 0], EditorState.textEdit "stale")],
        []⟩ = true ∧
      flagsOk [([], false), ([Discrim.str "demo::P", Discrim.num 0], false)] = true :=
  ⟨rfl, rfl,
   claim_c7_freshness_isolation 4 [] (fun _ => true) (fun _ => true)
     (.dynStruct "demo::P" [("x", .pnum "i32" 1)]) []
     ⟨[([Discrim.str "demo::P", Discrim.num 0], .textEdit "stale")], []⟩
     ⟨[([], .composite), ([Discrim.str "demo::P", Discrim.num 0], .textEdit "1")], []⟩
     [([], false), ([Discrim.str "demo::P", Discrim.num 0], false)]
     rfl rfl rfl⟩

/-- The Rust primitive numeric type paths — all signed and unsigned integer
widths and both float widths — which is what claim C8 quantifies over. -/
def rustNumericTypeNames : List String :=
  ["i8", "i16", "i32", "i64", "i128", "isize",
   "u8", "u16", "u32", "u64", "u128", "usize", "f32", "f64"]

/-- The type names claim C8 holds for once amended: every numeric width the
table actually seeds (the 128-bit integers are absent), plus bool, the
string type and the variant-construction proxy type. -/
def seededTypeNames : List String :=
  ["bool", "i8", "i16", "i32", "i64", "isize",
   "u8", "u16", "u32", "u64", "usize", "f32", "f64",
   "alloc::string::String", variantProxyTypeName]

/-- Counterexample to claim C8 as stated: the default table does not cover
every primitive numeric width — `i128` and `u128` have no entry. -/
theorem claim_c8_counterexample :
    (rustNumericTypeNames.all
      (fun n => (lookupEditor reprEditorsDefault n).isSome)) = false := rfl

/-- Claim C8 (corrected): the default-initialized editor table registers an
editor for every seeded primitive numeric width (8/16/32/64-bit and
pointer-sized integers, both floats — not the 128-bit integers), for bool,
for the string type, and for the variant-construction proxy type. -/
theorem claim_c8_amended_seeding :
    (seededTypeNames.all
      (fun n => (lookupEditor reprEditorsDefault n).isSome)) = true := rfl

/-- Claim C9 (confirmed). `ReprEditors::get` is total for every string
input: a registered name yields its registered editor, an unregistered one
yields the generic reflect-driven shape dispatcher; the table itself is
taken by shared reference and never changed. -/
theorem claim_c9_table_fallback_total (t : ReprEditors) (name : String) :
    (∀ e, lookupEditor t name = some e → t.get name = e) ∧
      (lookupEditor t name = none → t.get name = .reflectE) := by
  constructor
  · intro e h
    simp [ReprEditors.get, h]
  · intro h
    simp [ReprEditors.get, h]

/-- Witness for C9 at a registered and an unregistered name. -/
theorem claim_c9_table_fallback_total_witness :
    reprEditorsDefault.get "bool" = .boolE ∧
      reprEditorsDefault.get "demo::Unregistered" = .reflectE :=
  ⟨(claim_c9_table_fallback_total reprEditorsDefault "bool").1 _ rfl,
   (claim_c9_table_fallback_total reprEditorsDefault "demo::Unregistered").2 rfl⟩

/-- Claim C10 (confirmed). Every snapshot produced by `from_entity` has its
component-name list sorted ascending (`sort_unstable` before returning) and
every key of the reprs map also occurs in the component list (a repr is only
inserted in the branch that pushes that very name). -/
theorem claim_c10_snapshot_sorted (w : WorldM) (e : Nat) (ec : EntityComponents)
    (h : from_entity w e = .ret ec) :
    List.Pairwise (fun a b => strLe a b = true) ec.components ∧
      (ec.reprs.all
        (fun p => ec.components.any (fun c => c = p.1))) = true := by
  unfold from_entity at h
  cases hf : (w.entities.find? (fun p => p.1 == e)).map (·.2) with
  | none => rw [hf] at h; exact absurd h (by simp)
  | some comps =>
    rw [hf] at h
    injection h with h
    subst h
    constructor
    · exact sorted_insertionSortB strLe strLe_total strLe_trans _
    · rw [List.all_eq_true]
      intro p hp
      have hmem := from_entity_loop_keys w e comps [] [] (by simp) p hp
      rw [List.any_eq_true]
      exact ⟨p.1, mem_insertionSortB strLe p.1 _ hmem, by simp⟩

/-- Witness for C10: a concrete world whose entity 1 carries components
named `"demo::B"` and `"demo::A"` (one reflectable): the captured snapshot
is sorted and its repr key appears in the component list. -/
theorem claim_c10_snapshot_sorted_witness :
    List.Pairwise (fun a b => strLe a b = true)
        (["demo::A", "demo::B"] : List String) ∧
      (([("demo::A", DynVal.pbool true)].all
        (fun p =>
          (["demo::A", "demo::B"] : List String).any (fun c => c = p.1)))) = true :=
  claim_c10_snapshot_sorted
    ⟨[(1, [⟨some "demo::B", none, "c0"⟩, ⟨some "demo::A", none, "c1"⟩])],
      fun n => if n = "demo::A" then some (fun _ => some (.pbool true)) else none⟩
    1 ⟨["demo::A", "demo::B"], [("demo::A", .pbool true)]⟩ rfl

end Spyglass
